import Mathlib

/-!
Verification of the sequential-learning harness (`seql`): a shallow embedding of
the replay-buffer `Memory`, the agent `update` / `sample_params` contracts
(SGD, Ensemble, SGLD, Laplace, BlackJax-NUTS) and the `train` loop from
`seql/utils.py`, together with theorems settling the specification claims.

Machine reals and JAX arrays are modelled over `ℤ`; parameter trees are
one-component (`ℤ`) or two-component (`EParams`) trees, which is enough for the
structural claims under scrutiny.  Python `jnp.inf` buffer capacities are
modelled by `Option ℕ` (`none` = infinity).  Fallible Python code (failed
`assert`, `TypeError` on a mis-arity NamedTuple constructor) is embedded with
`Except String`.
-/

namespace Seql

/-- Last `n` elements of a list, in order: the meaning of Python `l[-n:]`
(with `n > 0`), written as a front drop. -/
def takeLast (n : ℕ) (l : List α) : List α := l.drop (l.length - n)

/-- Modelled from the spec: `Memory.update` lives in
`seql/agents/agent_utils.py`, which is absent from the sources (only its
callers are present).  Spec §4.1: appends the new batch to the currently
retained window, then retains only the most recent `buffer_size` entries;
`buffer_size` 0/∞ is the disabled sentinel, under which "the buffer stores at
most the incoming batch, no history".  `none` stands for the ∞ capacity. -/
def memUpdate (bufferSize : Option ℕ) (mem batch : List α) : List α :=
  match bufferSize with
  | none => batch
  | some 0 => batch
  | some (b + 1) => takeLast (b + 1) (mem ++ batch)

/-- Embedding of the guard `assert self.buffer_size >= len(x)` that opens
`update` in the SGD, Ensemble, SGLD and NUTS agents (`none` = `jnp.inf`). -/
def bufferAssert (bufferSize : Option ℕ) (batchLen : ℕ) : Bool :=
  match bufferSize with
  | none => true
  | some b => batchLen ≤ b

/-- Dynamically-typed Python value, as passed to a NamedTuple constructor. -/
inductive PyVal where
  | pybool (b : Bool)
  | pyint (n : ℤ)
  | pyinf
  deriving DecidableEq, Repr

/-- SGD diagnostics record: `class Info(NamedTuple): loss: float` in
`seql/agents/sgd_agent.py`. -/
structure SGDInfo where
  loss : PyVal
  deriving DecidableEq, Repr

/-- Python call-time arity check of the one-field `Info` NamedTuple of the SGD
agent: exactly one positional argument constructs it, anything else is a
`TypeError`. -/
def sgdInfoOfArgs : List PyVal → Except String SGDInfo
  | [l] => .ok ⟨l⟩
  | _ => .error "TypeError"

/-- Python call-time arity check of the zero-field `Info` NamedTuple shared by
the Ensemble and SGLD agents (`class Info(NamedTuple): ...`). -/
def zeroFieldInfoOfArgs : List PyVal → Except String Unit
  | [] => .ok ()
  | _ => .error "TypeError"

/-- SGD belief state: `BeliefState(params, opt_state)`. -/
structure SGDBelief (σ : Type) where
  params : ℤ
  optState : σ
  deriving DecidableEq, Repr

/-- Static configuration of an SGD agent (constructor arguments that the
`update` path reads). -/
structure SGDConfig where
  bufferSize : Option ℕ
  threshold : ℕ
  nepochs : ℕ
  deriving DecidableEq, Repr

/-- Epoch loop of `SGDAgent.update`: per epoch, `value_and_grad` at the current
parameters over the retained data, an optimizer step, and
`optax.apply_updates` (tree addition).  Returns final parameters, optimizer
state, and the loss reported by the last epoch (`0` when no epoch ran). -/
def sgdEpochs (vg : ℤ → List (ℤ × ℤ) → ℤ × ℤ) (ou : ℤ → σ → ℤ × σ)
    (data : List (ℤ × ℤ)) : ℕ → ℤ → σ → ℤ → ℤ × σ × ℤ
  | 0, p, s, l => (p, s, l)
  | n + 1, p, s, _ =>
    let vl := vg p data
    let us := ou vl.2 s
    sgdEpochs vg ou data n (p + us.1) us.2 vl.1

/-- Embedding of `SGDAgent.update`: the buffer-capacity assert, the `Memory`
fold, the low-data short circuit (which builds `Info(False, -1, jnp.inf)`
against the one-field `Info`), else the epoch loop.  The mutation of
`self.memory` is threaded explicitly: the new memory contents are returned
alongside the `(belief, info)` value. -/
def sgdUpdate (cfg : SGDConfig) (vg : ℤ → List (ℤ × ℤ) → ℤ × ℤ)
    (ou : ℤ → σ → ℤ × σ) (mem : List (ℤ × ℤ)) (belief : SGDBelief σ)
    (x y : List ℤ) : Except String ((SGDBelief σ × SGDInfo) × List (ℤ × ℤ)) :=
  if bufferAssert cfg.bufferSize x.length then
    let xy := memUpdate cfg.bufferSize mem (x.zip y)
    if xy.length < cfg.threshold then
      (sgdInfoOfArgs [.pybool false, .pyint (-1), .pyinf]).map
        (fun info => ((belief, info), xy))
    else
      let r := sgdEpochs vg ou xy cfg.nepochs belief.params belief.optState 0
      .ok ((⟨r.1, r.2.1⟩, ⟨.pyint r.2.2⟩), xy)
  else
    .error "AssertionError"

/-- Embedding of `SGDAgent.sample_params`: returns the point estimate,
ignoring the key. -/
def sgdSampleParams (_key : ℕ) (belief : SGDBelief σ) : ℤ :=
  belief.params

/-- Concrete `value_and_grad` instance: loss is the `mean_squared_error` of
`seql/utils.py` (a sum of squared residuals) for the scalar linear model
`model_fn p x = p * x`, gradient computed analytically. -/
def mseVG (p : ℤ) (data : List (ℤ × ℤ)) : ℤ × ℤ :=
  ((data.map (fun q => (p * q.1 - q.2) ^ 2)).sum,
   (data.map (fun q => 2 * (p * q.1 - q.2) * q.1)).sum)

/-- Concrete optimizer instance: plain gradient descent with unit learning
rate (`optax.sgd(1.0)`), stateless. -/
def unitSgdOpt (g : ℤ) (s : Unit) : ℤ × Unit := (-g, s)

/-! Ensemble agent (`seql/agents/ensemble_agent.py`). -/

/-- Parameter tree of one ensemble member: the frozen-dict
`{"params": {"baseline": ..., "trainable": ...}}`, each leaf a scalar. -/
structure EParams where
  baseline : ℤ
  trainable : ℤ
  deriving DecidableEq, Repr

/-- Tree addition on `EParams`, the meaning of `optax.apply_updates`. -/
def epAdd (p u : EParams) : EParams :=
  ⟨p.baseline + u.baseline, p.trainable + u.trainable⟩

/-- Embedding of `ensemble_model_fn`: predicts
`beta * model_fn(baseline, x) + model_fn(trainable, x)`. -/
def ensembleModelFn (beta : ℤ) (modelFn : ℤ → X → ℤ) (p : EParams) (x : X) : ℤ :=
  beta * modelFn p.baseline x + modelFn p.trainable x

/-- Embedding of the ensemble `loss_fn`: the log likelihood is taken at the
full parameter tree (through the supplied model function) while the log prior
is evaluated at the trainable leaf and — as the source writes `lp += ...` with
the same argument — added in a second time. -/
def ensembleLossFn (ll : EParams → X → Y → (EParams → X → ℤ) → ℤ)
    (lp : ℤ → ℤ) (beta : ℤ) (modelFn : ℤ → X → ℤ) (p : EParams) (x : X)
    (y : Y) : ℤ :=
  -(ll p x y (ensembleModelFn beta modelFn) + (lp p.trainable + lp p.trainable))

/-- Inner epoch loop of the per-member `train` closure in
`EnsembleAgent.update`: each epoch rebuilds the tree with the frozen baseline,
takes `value_and_grad` and an optimizer step, and applies the updates to the
whole tree (baseline included). -/
def memberTrainLoop (vg : EParams → ℤ × EParams) (ou : EParams → σ → EParams × σ)
    (baseline : ℤ) : ℕ → EParams → σ → EParams × σ
  | 0, p, s => (p, s)
  | n + 1, p, s =>
    let p1 : EParams := ⟨baseline, p.trainable⟩
    let vl := vg p1
    let us := ou vl.2 s
    memberTrainLoop vg ou baseline n (epAdd p1 us.1) us.2

/-- Embedding of the per-member `train` closure: captures the baseline at
entry, runs the epoch loop, then re-freezes the captured baseline into the
returned tree. -/
def memberTrain (vg : EParams → ℤ × EParams) (ou : EParams → σ → EParams × σ)
    (nepochs : ℕ) (p : EParams) (s : σ) : EParams × σ :=
  let baseline := p.baseline
  let r := memberTrainLoop vg ou baseline nepochs p s
  (⟨baseline, r.1.trainable⟩, r.2)

/-- Static configuration of an Ensemble agent. -/
structure EnsembleConfig where
  bufferSize : Option ℕ
  minNSamples : ℕ
  nepochs : ℕ
  deriving DecidableEq, Repr

/-- Embedding of `EnsembleAgent.update`: the buffer-capacity assert, the
`Memory` fold, the low-data short circuit (which builds
`Info(False, -1, jnp.inf)` against the zero-field `Info`), else per-member
bootstrap resampling of the retained data followed by the vmapped member
training.  `bootstrap i n` stands for the indices `bootstrap_sampling` draws
for member `i` from the split keys; out-of-range gather indices read `(0, 0)`.
The belief is the list of per-member `(params, opt_state)` pairs. -/
def ensembleUpdate (cfg : EnsembleConfig)
    (vg : EParams → List (ℤ × ℤ) → ℤ × EParams) (ou : EParams → σ → EParams × σ)
    (bootstrap : ℕ → ℕ → List ℕ) (mem : List (ℤ × ℤ))
    (belief : List (EParams × σ)) (x y : List ℤ) :
    Except String (List (EParams × σ) × List (ℤ × ℤ)) :=
  if bufferAssert cfg.bufferSize x.length then
    let xy := memUpdate cfg.bufferSize mem (x.zip y)
    if xy.length < cfg.minNSamples then
      (zeroFieldInfoOfArgs [.pybool false, .pyint (-1), .pyinf]).map
        (fun _ => (belief, xy))
    else
      let members := belief.enum.map (fun m =>
        let data := (bootstrap m.1 xy.length).map (fun j => xy.getD j (0, 0))
        memberTrain (fun q => vg q data) ou cfg.nepochs m.2.1 m.2.2)
      .ok (members, xy)
  else
    .error "AssertionError"

/-! BlackJax NUTS agent (`seql/agents/blackjax_nuts_agent.py`). -/

/-- Constructor normalisation `if buffer_size == jnp.inf: buffer_size = 0`. -/
def nutsNormalizeBufferSize (b : Option ℕ) : Option ℕ :=
  if b = none then some 0 else b

/-- Constructor guard `assert min_n_samples <= buffer_size or buffer_size == 0`
of the NUTS agent (evaluated after the normalisation). -/
def nutsCtorOk (minNSamples : ℕ) (b : Option ℕ) : Bool :=
  match b with
  | none => true
  | some bb => minNSamples ≤ bb || bb == 0

/-- Integrator state retained inside the NUTS belief (position and the cached
potential energy; the unused momentum/gradient slots are omitted). -/
structure NutsState where
  position : ℤ
  potentialEnergy : ℤ
  deriving DecidableEq, Repr

/-- NUTS belief state (the sample window and warm-up outputs are irrelevant to
the claims and omitted beyond the integrator state). -/
structure NutsBelief where
  state : NutsState
  deriving DecidableEq, Repr

/-- Potential-energy function that `BlackJaxNutsAgent.sample_params` hands to
the sampling kernel: `potential_fn = lambda params: belief.state.potential_energy`. -/
def nutsSampleParamsPotential (belief : NutsBelief) : ℤ → ℤ :=
  fun _params => belief.state.potentialEnergy

/-- Potential-energy function that `BlackJaxNutsAgent.update` hands to the
kernel: `partial_potential_fn = lambda params: logprob_fn(params, x_, y_, model_fn)`,
the current belief's posterior log probability over the retained data. -/
def nutsUpdatePotential (logprob : ℤ → X → Y → ℤ) (x : X) (y : Y) : ℤ → ℤ :=
  fun params => logprob params x y

/-! SGLD agent (`seql/agents/sgmcmc_sgld_agent.py`). -/

/-- Constructor guard `assert min_n_samples <= buffer_size` of the SGLD agent
(`none` = `jnp.inf`). -/
def sgldCtorOk (minNSamples : ℕ) (bufferSize : Option ℕ) : Bool :=
  match bufferSize with
  | none => true
  | some b => minNSamples ≤ b

/-! Training loop (`seql/utils.py`, `train`). -/

/-- Round context handed to every registered callback: the keyword arguments
`belief`, `info`, `X_train`, `Y_train`, `t` of the call in `train` (the
remaining keywords `agent` and `env` are the loop's own constant arguments). -/
structure RoundCtx (X Y Belief Info : Type) where
  belief : Belief
  info : Info
  xTrain : X
  yTrain : Y
  t : ℕ

/-- Loop body of `train` for one `(t, rng_key)` pair of `enumerate(keys)`:
pulls the round's batch, splits the round key into the update and joint keys,
runs `agent.update` on the update key, then applies every registered callback
to the round context.  The fold state carries the threaded belief, the
`rewards` accumulator, and the log of callback outputs (the shallow embedding
of the callbacks' side effects). -/
def trainStep (split2 : Key → Key × Key) (getData : ℕ → X × Y)
    (update : Key → Belief → X → Y → Belief × Info)
    (callbacks : List (RoundCtx X Y Belief Info → Out))
    (state : Belief × List ℤ × List (List Out)) (tk : ℕ × Key) :
    Belief × List ℤ × List (List Out) :=
  let data := getData tk.1
  let ks := split2 tk.2
  let bi := update ks.1 state.1 data.1 data.2
  let outs := callbacks.map (fun f => f ⟨bi.1, bi.2, data.1, data.2, tk.1⟩)
  (bi.1, state.2.1, state.2.2 ++ [outs])

/-- Embedding of `train`: initialises the empty `rewards` list, splits the
master key into `nsteps` round keys, folds the loop body over
`enumerate(keys)`, and returns the final belief together with `rewards` (and
the callback-output log standing for the callbacks' side effects). -/
def train (split : Key → ℕ → List Key) (split2 : Key → Key × Key)
    (getData : ℕ → X × Y) (update : Key → Belief → X → Y → Belief × Info)
    (callbacks : List (RoundCtx X Y Belief Info → Out)) (key : Key)
    (initialBelief : Belief) (nsteps : ℕ) :
    Belief × List ℤ × List (List Out) :=
  let rewards : List ℤ := []
  let keys := split key nsteps
  keys.enum.foldl (trainStep split2 getData update callbacks)
    (initialBelief, rewards, [])

/-- Round-by-round recursion following the words of the claim: round `t`
pulls its batch via `get_data(t)`, splits the round's key in two and passes
the first to `agent.update`, threads the belief strictly sequentially, and
records one invocation of every registered callback with the round context.
Stated over the list of round keys, one per round. -/
def trainSpecRounds (split2 : Key → Key × Key) (getData : ℕ → X × Y)
    (update : Key → Belief → X → Y → Belief × Info)
    (callbacks : List (RoundCtx X Y Belief Info → Out)) :
    List Key → ℕ → Belief → Belief × List (List Out)
  | [], _, b => (b, [])
  | k :: ks, t, b =>
    let data := getData t
    let uk := (split2 k).1
    let bi := update uk b data.1 data.2
    let rest := trainSpecRounds split2 getData update callbacks ks (t + 1) bi.1
    (rest.1, callbacks.map (fun f => f ⟨bi.1, bi.2, data.1, data.2, t⟩) :: rest.2)

/-- Claim-side statement of the training loop: `nsteps` sequential rounds over
the `nsteps` round keys split off the master key, starting at round index 0
from the initial belief. -/
def trainSpec (split : Key → ℕ → List Key) (split2 : Key → Key × Key)
    (getData : ℕ → X × Y) (update : Key → Belief → X → Y → Belief × Info)
    (callbacks : List (RoundCtx X Y Belief Info → Out)) (key : Key)
    (initialBelief : Belief) (nsteps : ℕ) : Belief × List (List Out) :=
  trainSpecRounds split2 getData update callbacks (split key nsteps) 0 initialBelief

/-! Helper lemmas. -/

theorem takeLast_eq_rtake (n : ℕ) (l : List α) : takeLast n l = l.rtake n := rfl

theorem length_takeLast (n : ℕ) (l : List α) :
    (takeLast n l).length = min l.length n := by
  simp [takeLast]
  omega

theorem take_append_take (n : ℕ) (a b : List α) :
    List.take n (a ++ List.take n b) = List.take n (a ++ b) := by
  rw [List.take_append_eq_append_take, List.take_append_eq_append_take,
    List.take_take]
  have : min (n - a.length) n = n - a.length := by omega
  rw [this]

theorem takeLast_append_takeLast (n : ℕ) (l m : List α) :
    takeLast n (takeLast n l ++ m) = takeLast n (l ++ m) := by
  simp only [takeLast_eq_rtake, List.rtake_eq_reverse_take_reverse,
    List.reverse_append, List.reverse_reverse]
  rw [take_append_take]

theorem foldl_memUpdate_finite (b : ℕ) (batches : List (List α)) :
    ∀ l : List α,
      List.foldl (memUpdate (some (b + 1))) (takeLast (b + 1) l) batches
        = takeLast (b + 1) (l ++ batches.flatten) := by
  induction batches with
  | nil => intro l; simp
  | cons m bs ih =>
    intro l
    simp only [List.foldl_cons, memUpdate, takeLast_append_takeLast]
    rw [ih (l ++ m)]
    simp

theorem foldl_memUpdate_sentinel_none (batches : List (List α)) :
    ∀ m0 : List α,
      List.foldl (memUpdate none) m0 batches = batches.getLast?.getD m0 := by
  induction batches with
  | nil => intro m0; rfl
  | cons b bs ih =>
    intro m0
    cases bs with
    | nil => rfl
    | cons c cs =>
      have h := ih m0
      simp only [List.foldl_cons, memUpdate] at h ⊢
      rw [h, List.getLast?_cons_cons]

theorem foldl_memUpdate_sentinel_zero (batches : List (List α)) :
    ∀ m0 : List α,
      List.foldl (memUpdate (some 0)) m0 batches = batches.getLast?.getD m0 := by
  induction batches with
  | nil => intro m0; rfl
  | cons b bs ih =>
    intro m0
    cases bs with
    | nil => rfl
    | cons c cs =>
      have h := ih m0
      simp only [List.foldl_cons, memUpdate] at h ⊢
      rw [h, List.getLast?_cons_cons]

theorem foldl_trainStep (split2 : Key → Key × Key) (getData : ℕ → X × Y)
    (update : Key → Belief → X → Y → Belief × Info)
    (callbacks : List (RoundCtx X Y Belief Info → Out)) (ks : List Key) :
    ∀ (t : ℕ) (b : Belief) (rw : List ℤ) (logs : List (List Out)),
      (List.enumFrom t ks).foldl (trainStep split2 getData update callbacks)
          (b, rw, logs)
        = ((trainSpecRounds split2 getData update callbacks ks t b).1, rw,
            logs ++ (trainSpecRounds split2 getData update callbacks ks t b).2) := by
  induction ks with
  | nil => intros; simp [trainSpecRounds]
  | cons k ks ih =>
    intro t b rw logs
    simp only [List.enumFrom, List.foldl_cons, trainStep, trainSpecRounds]
    rw [ih]
    simp

theorem trainSpecRounds_log_length (split2 : Key → Key × Key)
    (getData : ℕ → X × Y) (update : Key → Belief → X → Y → Belief × Info)
    (callbacks : List (RoundCtx X Y Belief Info → Out)) (ks : List Key) :
    ∀ (t : ℕ) (b : Belief),
      (trainSpecRounds split2 getData update callbacks ks t b).2.length
        = ks.length := by
  induction ks with
  | nil => intros; rfl
  | cons k ks ih =>
    intro t b
    simp only [trainSpecRounds, List.length_cons]
    rw [ih]

/-! Claim theorems. -/

/-- C1: the claim says every agent's low-data short circuit warns and returns
the input belief unchanged with a sentinel Info value, raising nothing.
Evaluating the SGD agent's `update` at a low-data input (empty memory,
one-sample batch, threshold 2) shows the path instead fails: the branch
constructs `Info(False, -1, jnp.inf)` against the one-field `Info(loss)`, a
`TypeError`; the second conjunct shows the zero-field `Info` of the Ensemble
and SGLD agents rejects the same three-argument construction. -/
theorem sgd_low_data_short_circuit_raises :
    sgdUpdate ⟨some 10, 2, 20⟩ mseVG unitSgdOpt [] ⟨0, ()⟩ [1] [1]
      = .error "TypeError"
    ∧ zeroFieldInfoOfArgs [.pybool false, .pyint (-1), .pyinf]
      = .error "TypeError" :=
  ⟨rfl, rfl⟩

/-- C2 counterexample: under the unbounded/disabled sentinel the `Memory`
modelled from spec §4.1 keeps only the incoming batch, so after appending the
batches `[1]` and `[2]` the retained samples are not all appended samples
`[1, 2]`. -/
theorem memory_sentinel_drops_history :
    List.foldl (memUpdate none) ([] : List ℕ) [[1], [2]] ≠ [1, 2] := by
  decide

/-- C2 amended: for a finite non-zero capacity `b + 1`, after any sequence of
batches the retained window is exactly the most recent `b + 1` elements of the
appended stream in order, and its size is `min (total appended) (b + 1)`;
under the 0/∞ sentinel only the most recent batch is retained (no history),
not all appended samples. -/
theorem memory_fifo_invariant :
    (∀ (α : Type) (b : ℕ) (batches : List (List α)),
        List.foldl (memUpdate (some (b + 1))) [] batches
          = takeLast (b + 1) batches.flatten
        ∧ (List.foldl (memUpdate (some (b + 1))) [] batches).length
          = min batches.flatten.length (b + 1))
    ∧ (∀ (α : Type) (batches : List (List α)),
        List.foldl (memUpdate none) [] batches = batches.getLast?.getD []
        ∧ List.foldl (memUpdate (some 0)) [] batches
          = batches.getLast?.getD []) := by
  constructor
  · intro α b batches
    have h0 : takeLast (b + 1) ([] : List α) = [] := by simp [takeLast]
    have h := foldl_memUpdate_finite b batches ([] : List α)
    rw [h0] at h
    simp only [List.nil_append] at h
    exact ⟨h, by rw [h, length_takeLast]⟩
  · intro α batches
    exact ⟨foldl_memUpdate_sentinel_none batches [],
      foldl_memUpdate_sentinel_zero batches []⟩

/-- C3: the claim says no batch-size check fails under the unbounded sentinel.
In the NUTS agent the constructor maps `jnp.inf` to `0` and its guard accepts
the sentinel, yet the update-time guard `assert self.buffer_size >= len(x)`
then evaluates `0 >= 1` for a one-sample batch and fails — so under the
sentinel every positive batch is rejected. -/
theorem nuts_sentinel_batch_assert_fails :
    nutsNormalizeBufferSize none = some 0
    ∧ nutsCtorOk 1 (nutsNormalizeBufferSize none) = true
    ∧ bufferAssert (nutsNormalizeBufferSize none) 1 = false := by
  decide

/-- C7: the claim says `sample_params` of the NUTS agent drives its single
sampling step by the potential-energy function of the current belief's
posterior.  The function the code hands to the kernel is
`lambda params: belief.state.potential_energy`: constant in the parameters
(first conjunct), unlike the posterior potential used by `update`, which does
depend on the parameters (second conjunct, at the identity log probability). -/
theorem nuts_sample_params_potential_constant :
    (∀ (belief : NutsBelief) (p q : ℤ),
        nutsSampleParamsPotential belief p = nutsSampleParamsPotential belief q)
    ∧ nutsUpdatePotential (fun (p : ℤ) (_ : Unit) (_ : Unit) => p) () () 0 = 0
    ∧ nutsUpdatePotential (fun (p : ℤ) (_ : Unit) (_ : Unit) => p) () () 1 = 1 :=
  ⟨fun _ _ _ => rfl, rfl, rfl⟩

/-- C8 counterexample: the claim concludes that an SGLD agent with the
sentinel `buffer_size = 0` cannot be created at all; yet the constructor guard
`assert min_n_samples <= buffer_size` passes for `min_n_samples = 0`,
`buffer_size = 0`. -/
theorem sgld_sentinel_zero_constructible :
    sgldCtorOk 0 (some 0) = true := by
  decide

/-- C8 amended: SGLD construction succeeds exactly when
`min_n_samples <= buffer_size`; with the defaults (`min_n_samples = 1`,
`buffer_size = 0`) it always fails, and an agent with the sentinel
`buffer_size = 0` is constructible only by passing `min_n_samples = 0`. -/
theorem sgld_ctor_guard :
    (∀ (minN b : ℕ), sgldCtorOk minN (some b) = true ↔ minN ≤ b)
    ∧ sgldCtorOk 1 (some 0) = false := by
  refine ⟨fun minN b => ?_, by decide⟩
  simp [sgldCtorOk]

/-- C8 witness: the amended guard applied at `min_n_samples = 2`,
`buffer_size = 3`. -/
theorem sgld_ctor_guard_witness : sgldCtorOk 2 (some 3) = true :=
  (sgld_ctor_guard.1 2 3).mpr (by decide)

/-- C9: the ensemble per-member training loss equals
`-(loglikelihood + 2 * logprior(trainable))` — the prior of the trainable
leaf is added twice and the baseline leaf's prior never enters. -/
theorem ensemble_loss_double_prior :
    ∀ (X Y : Type) (ll : EParams → X → Y → (EParams → X → ℤ) → ℤ)
      (lp : ℤ → ℤ) (beta : ℤ) (modelFn : ℤ → X → ℤ) (p : EParams) (x : X)
      (y : Y),
      ensembleLossFn ll lp beta modelFn p x y
        = -(ll p x y (ensembleModelFn beta modelFn) + 2 * lp p.trainable) := by
  intros
  simp only [ensembleLossFn]
  ring

/-- C4 counterexample: two sequential `update` calls on the SGD agent with
identical key, belief and batch do not produce identical outputs.  With
capacity 2, threshold 1 and one training epoch, the first call (empty memory)
returns parameters 2, while the repeat call — identical explicit arguments,
but the memory now holds the first batch — returns parameters 4: the
agent-held `Memory` is hidden state that influences the result. -/
theorem sgd_update_repeat_differs :
    sgdUpdate ⟨some 2, 1, 1⟩ mseVG unitSgdOpt [] ⟨0, ()⟩ [1] [1]
      = .ok ((⟨2, ()⟩, ⟨.pyint 1⟩), [(1, 1)])
    ∧ sgdUpdate ⟨some 2, 1, 1⟩ mseVG unitSgdOpt [(1, 1)] ⟨0, ()⟩ [1] [1]
      = .ok ((⟨4, ()⟩, ⟨.pyint 2⟩), [(1, 1), (1, 1)])
    ∧ (((⟨2, ()⟩, ⟨.pyint 1⟩) : SGDBelief Unit × SGDInfo)
        ≠ ((⟨4, ()⟩, ⟨.pyint 2⟩) : SGDBelief Unit × SGDInfo)) :=
  ⟨rfl, rfl, by decide⟩

/-- C4 amended: `update` is a deterministic function of the explicit
arguments plus the agent's Memory contents; the Memory is the only hidden
input, so under the disabled-buffer sentinel (capacity 0/∞, where the fold
returns just the incoming batch) the result does not depend on the memory at
all and repeated identical calls are bit-identical, and `sample_params`
depends only on its explicit belief argument. -/
theorem sgd_update_sentinel_memory_independent :
    (∀ (σ : Type) (cfg : SGDConfig) (vg : ℤ → List (ℤ × ℤ) → ℤ × ℤ)
        (ou : ℤ → σ → ℤ × σ) (mem mem' : List (ℤ × ℤ)) (belief : SGDBelief σ)
        (x y : List ℤ),
        cfg.bufferSize = none ∨ cfg.bufferSize = some 0 →
        sgdUpdate cfg vg ou mem belief x y
          = sgdUpdate cfg vg ou mem' belief x y)
    ∧ ∀ (σ : Type) (k k' : ℕ) (b : SGDBelief σ),
        sgdSampleParams k b = sgdSampleParams k' b := by
  constructor
  · intro σ cfg vg ou mem mem' belief x y h
    rcases h with h | h <;> simp [sgdUpdate, memUpdate, h]
  · intro σ k k' b
    rfl

/-- C4 witness: the sentinel-independence direction applied with the ∞
capacity, a non-empty versus an empty memory, and a concrete batch. -/
theorem sgd_update_sentinel_memory_independent_witness :
    sgdUpdate ⟨none, 1, 1⟩ mseVG unitSgdOpt [(5, 5)] ⟨0, ()⟩ [1] [1]
      = sgdUpdate ⟨none, 1, 1⟩ mseVG unitSgdOpt [] ⟨0, ()⟩ [1] [1] :=
  sgd_update_sentinel_memory_independent.1 Unit ⟨none, 1, 1⟩ mseVG unitSgdOpt
    [(5, 5)] [] ⟨0, ()⟩ [1] [1] (Or.inl rfl)

/-- C5: whenever `EnsembleAgent.update` completes (sufficient data, so it
returns an `ok` result rather than short-circuiting or failing an assert),
the baseline leaf of every ensemble member's parameters in the returned
belief equals its value in the input belief: the per-member training closure
captures the baseline on entry and re-freezes it into the returned tree. -/
theorem ensemble_update_preserves_baseline :
    ∀ (σ : Type) (cfg : EnsembleConfig)
      (vg : EParams → List (ℤ × ℤ) → ℤ × EParams)
      (ou : EParams → σ → EParams × σ) (bootstrap : ℕ → ℕ → List ℕ)
      (mem : List (ℤ × ℤ)) (belief : List (EParams × σ)) (x y : List ℤ)
      (res : List (EParams × σ) × List (ℤ × ℤ)),
      ensembleUpdate cfg vg ou bootstrap mem belief x y = .ok res →
      res.1.map (fun m => m.1.baseline) = belief.map (fun m => m.1.baseline) := by
  intro σ cfg vg ou bootstrap mem belief x y res h
  by_cases hb : bufferAssert cfg.bufferSize x.length = true
  · by_cases hl :
      (memUpdate cfg.bufferSize mem (x.zip y)).length < cfg.minNSamples
    · simp [ensembleUpdate, hb, hl, zeroFieldInfoOfArgs, Except.map] at h
    · simp only [ensembleUpdate, hb, if_true, if_neg hl,
        Except.ok.injEq] at h
      rw [← h]
      rw [List.map_map]
      have hg : ((fun (m : EParams × σ) => m.1.baseline) ∘
            fun (z : ℕ × EParams × σ) =>
              memberTrain
                (fun q => vg q ((bootstrap z.1
                    (memUpdate cfg.bufferSize mem (x.zip y)).length).map
                  (fun j => (memUpdate cfg.bufferSize mem (x.zip y)).getD j (0, 0))))
                ou cfg.nepochs z.2.1 z.2.2)
          = ((fun (m : EParams × σ) => m.1.baseline) ∘ Prod.snd) :=
        funext fun z => rfl
      rw [hg, ← List.map_map, List.enum_map_snd]
  · simp [ensembleUpdate, hb] at h

/-- C5 witness: a one-member ensemble with baseline 5, one epoch and a
gradient that perturbs both leaves; the update completes and the returned
baseline is still 5. -/
theorem ensemble_update_preserves_baseline_witness :
    ([(⟨5, 8⟩, ())] : List (EParams × Unit)).map (fun m => m.1.baseline)
      = ([(⟨5, 7⟩, ())] : List (EParams × Unit)).map (fun m => m.1.baseline) :=
  ensemble_update_preserves_baseline Unit ⟨some 10, 1, 1⟩
    (fun _ _ => (0, ⟨1, 1⟩)) (fun g _ => (g, ())) (fun _ _ => [0]) []
    [(⟨5, 7⟩, ())] [1] [1] ([(⟨5, 8⟩, ())], [(1, 1)]) rfl

/-- C6: `train` runs one round per split round key: round `t` pulls its batch
via `get_data(t)`, splits the round key in two and hands the first stream to
`agent.update`, threads the belief strictly sequentially, invokes every
registered callback with the round context (`belief`, `info`, `X_train`,
`Y_train`, `t`; `agent` and `env` are the loop's constant arguments), and
returns the final belief — i.e. it equals the round-by-round recursion
`trainSpec`, with the empty `rewards` component; and when the key split
yields `nsteps` keys the loop performs exactly `nsteps` rounds. -/
theorem train_loop_contract :
    ∀ (Key X Y Belief Info Out : Type) (split : Key → ℕ → List Key)
      (split2 : Key → Key × Key) (getData : ℕ → X × Y)
      (update : Key → Belief → X → Y → Belief × Info)
      (callbacks : List (RoundCtx X Y Belief Info → Out)) (key : Key)
      (b0 : Belief) (nsteps : ℕ),
      train split split2 getData update callbacks key b0 nsteps
        = ((trainSpec split split2 getData update callbacks key b0 nsteps).1,
            [],
            (trainSpec split split2 getData update callbacks key b0 nsteps).2)
      ∧ ((split key nsteps).length = nsteps →
          (train split split2 getData update callbacks key b0 nsteps).2.2.length
            = nsteps) := by
  intro Key X Y Belief Info Out split split2 getData update callbacks key b0 nsteps
  have h := foldl_trainStep split2 getData update callbacks
    (split key nsteps) 0 b0 [] []
  have htrain : train split split2 getData update callbacks key b0 nsteps
      = ((trainSpec split split2 getData update callbacks key b0 nsteps).1,
          [],
          (trainSpec split split2 getData update callbacks key b0 nsteps).2) := by
    simp only [train, trainSpec]
    rw [show (split key nsteps).enum = List.enumFrom 0 (split key nsteps) from rfl]
    rw [h]
    simp
  refine ⟨htrain, fun hlen => ?_⟩
  rw [htrain]
  simp only [trainSpec]
  rw [trainSpecRounds_log_length]
  exact hlen

/-- C6 witness: a concrete two-round instantiation (numeric keys, a splitter
returning the requested number of keys, a counting update, one callback)
satisfying the key-count hypothesis. -/
theorem train_loop_contract_witness :
    (train (fun k n => (List.range n).map (fun i => k + i)) (fun k => (k, k + 1))
        (fun t => (t, t)) (fun k b _ _ => (b + 1, k))
        [fun (c : RoundCtx ℕ ℕ ℕ ℕ) => c.t] 7 0 2).2.2.length = 2 :=
  (train_loop_contract ℕ ℕ ℕ ℕ ℕ ℕ
      (fun k n => (List.range n).map (fun i => k + i)) (fun k => (k, k + 1))
      (fun t => (t, t)) (fun k b _ _ => (b + 1, k))
      [fun (c : RoundCtx ℕ ℕ ℕ ℕ) => c.t] 7 0 2).2 (by simp)

/-- C10: the diagnostics returned as the second component of `train` are
always the empty list — `rewards` is initialised empty and no round ever
appends to it. -/
theorem train_rewards_always_empty :
    ∀ (Key X Y Belief Info Out : Type) (split : Key → ℕ → List Key)
      (split2 : Key → Key × Key) (getData : ℕ → X × Y)
      (update : Key → Belief → X → Y → Belief × Info)
      (callbacks : List (RoundCtx X Y Belief Info → Out)) (key : Key)
      (b0 : Belief) (nsteps : ℕ),
      (train split split2 getData update callbacks key b0 nsteps).2.1 = [] := by
  intro Key X Y Belief Info Out split split2 getData update callbacks key b0 nsteps
  have h := foldl_trainStep split2 getData update callbacks
    (split key nsteps) 0 b0 [] []
  simp only [train]
  rw [show (split key nsteps).enum = List.enumFrom 0 (split key nsteps) from rfl]
  rw [h]

end Seql
